import Mathlib

/-!
# InfomediaUploader (flameshot, `src/tools/imgupload/storages/infomedia/infomediauploader.cpp`)

A shallow embedding of the uploader: the Qt string operations it calls, the
multipart requests built by `upload()` and `deleteImage()`, the completion
handler `handleReply()`, and the signal wiring of the network managers.

Conventions of the embedding.

* `QString` is a Lean `String` (a sequence of characters); `QByteArray` is a
  list of bytes.  Indices returned by `lastIndexOf` are `Int`, as Qt's `int`;
  a string is far shorter than `2^31`, so `lastSlash + 1` cannot overflow.
* Side effects on collaborators (signals emitted, widgets touched, history
  writes, network posts) are recorded, in program order, as a list of `Effect`.
* Code that is not in this translation unit (configuration, history naming,
  `QUrl` parsing, PNG encoding, translation, the `INFOMEDIA_API_URL` macro) is
  a field of `Env`, so every theorem holds for every behaviour of that code.
-/

namespace Infomedia

/-! ## Qt strings -/

abbrev QString := String
abbrev QByteArray := List UInt8

/-- Qt's `QString::toUtf8()`. -/
def QString.toUtf8 (s : QString) : QByteArray :=
  s.toUTF8.data.toList

/-- Backward scan of `QString::lastIndexOf`: the greatest start index `≤ i` at
which `needle` occurs in `hay`, or `-1`. -/
def lastIndexOfAux (hay needle : List Char) : Nat → Int
  | 0 => if needle.isPrefixOf hay then 0 else -1
  | i + 1 =>
    if needle.isPrefixOf (hay.drop (i + 1)) then ((i + 1 : Nat) : Int)
    else lastIndexOfAux hay needle i

/-- Qt's `QString::lastIndexOf(const QString &str)` with the default `from = -1`:
the index of the last occurrence of `needle`, or `-1` when there is none. -/
def QString.lastIndexOf (s needle : QString) : Int :=
  if s.data.length = 0 ∨ s.data.length < needle.data.length then -1
  else lastIndexOfAux s.data needle.data
    (min (s.data.length - 1) (s.data.length - needle.data.length))

/-- Qt's `QString::mid(int position)` with the default `n = -1`: everything from
`position` on; a null string when `position` exceeds the length. -/
def QString.mid (s : QString) (position : Int) : QString :=
  if position > (s.data.length : Int) then ""
  else if position < 0 then s
  else ⟨s.data.drop position.toNat⟩

/-- Lines 47-50 of `handleReply`: the last path segment of the URL text.
```
int lastSlash = m_currentImageName.lastIndexOf("/");
if (lastSlash >= 0) {
    m_currentImageName = m_currentImageName.mid(lastSlash + 1);
}
``` -/
def derivedBaseName (m_currentImageName : QString) : QString :=
  let lastSlash := QString.lastIndexOf m_currentImageName "/"
  if lastSlash ≥ 0 then QString.mid m_currentImageName (lastSlash + 1)
  else m_currentImageName

/-! ### `QString::arg` -/

/-- Qt's `QChar::digitValue()` for the ASCII digits. -/
def digitValue (c : Char) : Option Nat :=
  if c.isDigit then some (c.toNat - '0'.toNat) else none

/-- The digits of a place marker: one digit, or two when a second follows.
Returns the marker number and the number of characters read. -/
def markerDigits : List Char → Option (Nat × Nat)
  | [] => none
  | d :: rest =>
    match digitValue d with
    | none => none
    | some a =>
      match rest with
      | [] => some (a, 1)
      | e :: _ =>
        match digitValue e with
        | none => some (a, 1)
        | some b => some (10 * a + b, 2)

/-- A place marker `%N`, `%NN`, `%LN` or `%LNN` at the head of the text:
its number and its length in characters. -/
def markerAt : List Char → Option (Nat × Nat)
  | '%' :: 'L' :: rest => (markerDigits rest).map fun p => (p.1, p.2 + 2)
  | '%' :: rest => (markerDigits rest).map fun p => (p.1, p.2 + 1)
  | _ => none

/-- The lowest marker number in the text, if it has a marker at all. -/
def lowestMarker : List Char → Option Nat
  | [] => none
  | c :: rest =>
    match markerAt (c :: rest), lowestMarker rest with
    | some (n, _), some m => some (min n m)
    | some (n, _), none => some n
    | none, r => r

/-- Replace every marker numbered `n` by `a`; `skip` characters of a marker
being replaced are still to be dropped. -/
def replaceMarker (n : Nat) (a : List Char) : Nat → List Char → List Char
  | _, [] => []
  | skip + 1, _ :: rest => replaceMarker n a skip rest
  | 0, c :: rest =>
    match markerAt (c :: rest) with
    | some (m, len) =>
      if m = n then a ++ replaceMarker n a (len - 1) rest
      else c :: replaceMarker n a 0 rest
    | none => c :: replaceMarker n a 0 rest

/-- Qt's `QString::arg(const QString &a)`: every occurrence of the lowest-numbered
place marker is replaced by `a`; a text without a marker is returned as is. -/
def QString.arg (s a : QString) : QString :=
  match lowestMarker s.data with
  | none => s
  | some n => ⟨replaceMarker n a.data 0 s.data⟩

/-! ## Qt network and collaborator types -/

/-- The internal state of a `QUrl`.  How a text is parsed into it and printed
from it is Qt's business: see `Env.urlFromString` and `Env.urlToString`. -/
structure QUrl where
  repr : QString
  deriving DecidableEq, Repr

/-- The captured image, as raw pixel data. -/
structure QPixmap where
  pixels : List Nat
  deriving DecidableEq, Repr

/-- Qt's `QNetworkReply::NetworkError`, by its numeric value. -/
abbrev NetworkError := Nat

/-- Qt's `QNetworkReply::NoError`. -/
def NoError : NetworkError := 0

/-- What the code reads from a `QNetworkReply`: `error()`, `errorString()`
and `readAll()`. -/
structure QNetworkReply where
  error : NetworkError
  errorString : QString
  readAll : QByteArray
  deriving DecidableEq, Repr

/-- Qt's `QNetworkRequest::KnownHeaders`, the two the uploader sets. -/
inductive KnownHeaders where
  | ContentTypeHeader
  | ContentDispositionHeader
  deriving DecidableEq, Repr

/-- Qt's `QHttpPart`: its headers, in the order they were first set, and its body. -/
structure QHttpPart where
  headers : List (KnownHeaders × QString) := []
  body : QByteArray := []
  deriving DecidableEq, Repr

/-- Qt's `QHttpPart::setHeader`: a header set again replaces its earlier value. -/
def QHttpPart.setHeader (p : QHttpPart) (header : KnownHeaders) (value : QString) :
    QHttpPart :=
  { p with headers := p.headers.filter (fun h => h.1 ≠ header) ++ [(header, value)] }

/-- Qt's `QHttpPart::setBody`. -/
def QHttpPart.setBody (p : QHttpPart) (body : QByteArray) : QHttpPart :=
  { p with body := body }

/-- The value of a header of the part, when it is set. -/
def QHttpPart.header (p : QHttpPart) (header : KnownHeaders) : Option QString :=
  (p.headers.find? (fun h => h.1 = header)).map Prod.snd

/-- Qt's `QHttpMultiPart::ContentType`, the one the uploader uses. -/
inductive ContentType where
  | FormDataType
  deriving DecidableEq, Repr

/-- Qt's `QHttpMultiPart`: the parts in the order they were appended. -/
structure QHttpMultiPart where
  contentType : ContentType
  parts : List QHttpPart := []
  deriving DecidableEq, Repr

/-- Qt's `QHttpMultiPart::append`. -/
def QHttpMultiPart.append (m : QHttpMultiPart) (p : QHttpPart) : QHttpMultiPart :=
  { m with parts := m.parts ++ [p] }

/-- Qt's `QNetworkRequest`: the URL and the raw headers. -/
structure QNetworkRequest where
  url : QUrl
  rawHeaders : List (QByteArray × QByteArray) := []
  deriving DecidableEq, Repr

/-- Qt's `QNetworkRequest::setRawHeader` for a non-null value: the header replaces
one of the same name. -/
def QNetworkRequest.setRawHeader (r : QNetworkRequest) (name value : QByteArray) :
    QNetworkRequest :=
  { r with rawHeaders := r.rawHeaders.filter (fun h => h.1 ≠ name) ++ [(name, value)] }

/-- The value of a raw header of the request, when it is set. -/
def QNetworkRequest.rawHeader (r : QNetworkRequest) (name : QByteArray) :
    Option QByteArray :=
  (r.rawHeaders.find? (fun h => h.1 = name)).map Prod.snd

/-- Code outside this translation unit that the uploader calls. -/
structure Env where
  /-- The call `ConfigHandler().infomediaUserHash()`. -/
  infomediaUserHash : QString
  /-- The call `ConfigHandler().infomediaApiToken()`. -/
  infomediaApiToken : QString
  /-- The call `History::packFileName(storageType, deleteToken, fileName)`. -/
  packFileName : QString → QString → QString → QString
  /-- The macro `INFOMEDIA_API_URL`. -/
  INFOMEDIA_API_URL : QString
  /-- Qt's `QUrl::QUrl(const QString &)`. -/
  urlFromString : QString → QUrl
  /-- Qt's `QUrl::toString()`. -/
  urlToString : QUrl → QString
  /-- Qt's `QString::QString(const QByteArray &)`, the UTF-8 decoding of a reply body. -/
  fromUtf8 : QByteArray → QString
  /-- Qt's `QPixmap::save(&buffer, "PNG")`: the bytes written to the buffer. -/
  savePng : QPixmap → QByteArray
  /-- Qt's `QObject::tr`. -/
  tr : QString → QString

/-- The observable side effects of the uploader, one constructor per call on
a collaborator. -/
inductive Effect where
  /-- The call `spinner()->deleteLater()`. -/
  | spinnerDeleteLater
  /-- The call `setImageURL(url)`. -/
  | setImageURL (url : QUrl)
  /-- The call `history.save(pixmap, name)`. -/
  | historySave (pixmap : QPixmap) (name : QString)
  /-- The signal `emit uploadOk(url)`. -/
  | uploadOk (url : QUrl)
  /-- The call `setInfoLabelText(text)`. -/
  | setInfoLabelText (text : QString)
  /-- The statement `new QShortcut(Qt::Key_Escape, this, SLOT(close()))`. -/
  | newEscapeShortcut
  /-- The call `manager->post(request, http)` on the manager numbered `manager`. -/
  | post (manager : Nat) (request : QNetworkRequest) (http : QHttpMultiPart)
  /-- The call `notification()->showMessage(text)`. -/
  | showMessage (text : QString)
  /-- The signal `emit deleteOk()`. -/
  | deleteOk
  deriving DecidableEq, Repr

/-! ## The uploader -/

/-- The state of an `InfomediaUploader` object.  The `QNetworkAccessManager`
objects it creates are numbered in creation order; `connections` lists the
managers whose `finished` signal is connected to `handleReply`. -/
structure InfomediaUploader where
  /-- The image `ImgUploaderBase::pixmap()` returns. -/
  pixmap : QPixmap
  /-- The member `ImgUploaderBase::m_imageURL`. -/
  m_imageURL : QUrl
  m_currentImageName : QString
  m_NetworkAM : Nat
  /-- The number of managers created so far. -/
  managers : Nat
  connections : List Nat
  deriving DecidableEq, Repr

/-- Modelled from the spec: `ImgUploaderBase::setImageURL` is declared in the
base class, which is not part of the sources at hand.  The spec has the
success transition "publish the URL to observers"; the setter stores the URL
that `imageURL()` hands out. -/
def InfomediaUploader.setImageURL (s : InfomediaUploader) (url : QUrl) :
    InfomediaUploader :=
  { s with m_imageURL := url }

/-- Modelled from the spec: `ImgUploaderBase::imageURL` is declared in the
base class, which is not part of the sources at hand; it returns the
published URL. -/
def InfomediaUploader.imageURL (s : InfomediaUploader) : QUrl :=
  s.m_imageURL

/-- The constructor (lines 26-34): one manager is created and its `finished`
signal is connected to `handleReply`. -/
def InfomediaUploader.new (capture : QPixmap) : InfomediaUploader :=
  { pixmap := capture
    m_imageURL := ⟨""⟩
    m_currentImageName := ""
    m_NetworkAM := 0
    managers := 1
    connections := [0] }

/-- The slot `InfomediaUploader::handleReply` (lines 36-64). -/
def handleReply (env : Env) (s : InfomediaUploader) (reply : QNetworkReply) :
    InfomediaUploader × List Effect :=
  let s := { s with m_currentImageName := "" }
  if reply.error = NoError then
    let url : QString := env.fromUtf8 reply.readAll
    let s := s.setImageURL (env.urlFromString url)
    let s := { s with m_currentImageName := derivedBaseName (env.urlToString s.imageURL) }
    let s := { s with m_currentImageName :=
      env.packFileName "infomedia" env.infomediaUserHash s.m_currentImageName }
    (s, [Effect.spinnerDeleteLater,
         Effect.setImageURL (env.urlFromString url),
         Effect.historySave s.pixmap s.m_currentImageName,
         Effect.uploadOk s.imageURL,
         Effect.newEscapeShortcut])
  else
    (s, [Effect.spinnerDeleteLater,
         Effect.setInfoLabelText reply.errorString,
         Effect.newEscapeShortcut])

/-- The `reqtype` part (lines 75-81 and 125-131). -/
def reqTypePart (body : QByteArray) : QHttpPart :=
  (((({} : QHttpPart).setHeader KnownHeaders.ContentTypeHeader "text/plain").setHeader
    KnownHeaders.ContentDispositionHeader "form-data; name=\"reqtype\"").setBody body)

/-- The `userhash` part (lines 83-89 and 133-139). -/
def userPart (body : QByteArray) : QHttpPart :=
  (((({} : QHttpPart).setHeader KnownHeaders.ContentDispositionHeader
    "form-data; name=\"userhash\"").setHeader
    KnownHeaders.ContentTypeHeader "text/plain").setBody body)

/-- The `secret` part (lines 91-97 and 141-147). -/
def secretPart (body : QByteArray) : QHttpPart :=
  (((({} : QHttpPart).setHeader KnownHeaders.ContentDispositionHeader
    "form-data; name=\"secret\"").setHeader
    KnownHeaders.ContentTypeHeader "text/plain").setBody body)

/-- The request of both `upload()` and `deleteImage()` (lines 106-110 and
157-161): the API URL and the session cookie. -/
def cookieRequest (env : Env) : QNetworkRequest :=
  (({ url := env.urlFromString env.INFOMEDIA_API_URL } : QNetworkRequest).setRawHeader
    (QString.toUtf8 "Cookie")
    (QString.toUtf8 (QString.arg "PHPSESSID %1" env.infomediaUserHash)))

/-- The multipart body built by `upload()` (lines 68-104). -/
def uploadMultiPart (env : Env) (s : InfomediaUploader) : QHttpMultiPart :=
  let byteArray := env.savePng s.pixmap
  let http : QHttpMultiPart := { contentType := ContentType.FormDataType }
  let http := http.append (reqTypePart (QString.toUtf8 "fileupload"))
  let http := http.append (userPart (QString.toUtf8 env.infomediaUserHash))
  let http := http.append (secretPart (QString.toUtf8 env.infomediaApiToken))
  let filePart := (({} : QHttpPart).setHeader KnownHeaders.ContentDispositionHeader
    "form-data; name=\"file\"; filename=\"upload.png\"").setBody byteArray
  http.append filePart

/-- The method `InfomediaUploader::upload` (lines 66-114): the request is posted on the
manager `m_NetworkAM` points to. -/
def upload (env : Env) (s : InfomediaUploader) : InfomediaUploader × List Effect :=
  (s, [Effect.post s.m_NetworkAM (cookieRequest env) (uploadMultiPart env s)])

/-- The multipart body built by `deleteImage()` (lines 123-155). -/
def deleteMultiPart (env : Env) (fileName deleteToken : QString) : QHttpMultiPart :=
  let http : QHttpMultiPart := { contentType := ContentType.FormDataType }
  let http := http.append (reqTypePart (QString.toUtf8 "deletefiles"))
  let http := http.append (userPart (QString.toUtf8 deleteToken))
  let http := http.append (secretPart (QString.toUtf8 env.infomediaApiToken))
  let filePart := ((({} : QHttpPart).setHeader KnownHeaders.ContentDispositionHeader
    "form-data; name=\"file\";").setBody (QString.toUtf8 fileName)).setHeader
    KnownHeaders.ContentTypeHeader "text/plain"
  http.append filePart

/-- The method `InfomediaUploader::deleteImage` (lines 116-171).  `reply` is the reply
object as `post` returned it: its `error()` is read right after the call.
The manager created at line 120 replaces `m_NetworkAM`; nothing is connected
to its `finished` signal. -/
def deleteImage (env : Env) (s : InfomediaUploader) (fileName deleteToken : QString)
    (reply : QNetworkReply) : InfomediaUploader × List Effect :=
  let s := { s with m_NetworkAM := s.managers, managers := s.managers + 1 }
  let posted := Effect.post s.m_NetworkAM (cookieRequest env)
    (deleteMultiPart env fileName deleteToken)
  if reply.error ≠ NoError then
    (s, [posted, Effect.showMessage (env.tr "Unable to delete file."), Effect.deleteOk])
  else
    (s, [posted, Effect.deleteOk])

/-- The `finished` signal of the manager numbered `manager`, emitted for a
reply of a request posted on it: the slot `handleReply` runs when, and only
when, that manager's signal is connected to it. -/
def finished (env : Env) (s : InfomediaUploader) (manager : Nat) (reply : QNetworkReply) :
    InfomediaUploader × List Effect :=
  if manager ∈ s.connections then handleReply env s reply else (s, [])

/-- A call on the public interface of the uploader. -/
inductive Call where
  | upload
  | deleteImage (fileName deleteToken : QString) (reply : QNetworkReply)
  deriving DecidableEq, Repr

/-- One call. -/
def step (env : Env) (s : InfomediaUploader) : Call → InfomediaUploader × List Effect
  | Call.upload => upload env s
  | Call.deleteImage fileName deleteToken reply => deleteImage env s fileName deleteToken reply

/-- The state after a sequence of calls. -/
def run (env : Env) (s : InfomediaUploader) : List Call → InfomediaUploader
  | [] => s
  | c :: cs => run env (step env s c).1 cs

/-! ## Reading an effect trace -/

/-- The `history.save` calls of a trace. -/
def historySaves : List Effect → List (QPixmap × QString)
  | [] => []
  | Effect.historySave p n :: es => (p, n) :: historySaves es
  | _ :: es => historySaves es

/-- The URLs passed to `setImageURL` in a trace. -/
def publishedURLs : List Effect → List QUrl
  | [] => []
  | Effect.setImageURL u :: es => u :: publishedURLs es
  | _ :: es => publishedURLs es

/-- The URLs carried by the `uploadOk` signals of a trace. -/
def uploadOks : List Effect → List QUrl
  | [] => []
  | Effect.uploadOk u :: es => u :: uploadOks es
  | _ :: es => uploadOks es

/-- The texts passed to `setInfoLabelText` in a trace. -/
def infoLabelTexts : List Effect → List QString
  | [] => []
  | Effect.setInfoLabelText t :: es => t :: infoLabelTexts es
  | _ :: es => infoLabelTexts es

/-- The texts passed to `notification()->showMessage` in a trace. -/
def shownMessages : List Effect → List QString
  | [] => []
  | Effect.showMessage t :: es => t :: shownMessages es
  | _ :: es => shownMessages es

/-- The number of `deleteOk` signals in a trace. -/
def deleteOkCount : List Effect → Nat
  | [] => 0
  | Effect.deleteOk :: es => deleteOkCount es + 1
  | _ :: es => deleteOkCount es

/-- The requests posted in a trace, each with the manager it was posted on. -/
def posts : List Effect → List (Nat × QNetworkRequest × QHttpMultiPart)
  | [] => []
  | Effect.post m r h :: es => (m, r, h) :: posts es
  | _ :: es => posts es

/-- A form part as the server sees it: its `Content-Disposition` and its body. -/
def formField (p : QHttpPart) : Option QString × QByteArray :=
  (p.header KnownHeaders.ContentDispositionHeader, p.body)

/-! ## An environment to evaluate the model on -/

/-- A reply body read as one character per byte. -/
def bytesToText (b : QByteArray) : QString :=
  ⟨b.map fun c => Char.ofNat c.toNat⟩

/-- A text as one byte per character, for ASCII texts. -/
def textToBytes (s : QString) : QByteArray :=
  s.data.map fun c => UInt8.ofNat c.toNat

/-- A concrete environment: the user hash `hash`, the API token `token`,
history names joined by `-`, URLs kept as their text. -/
def sampleEnv : Env :=
  { infomediaUserHash := "hash"
    infomediaApiToken := "token"
    packFileName := fun storageType deleteToken fileName =>
      storageType ++ "-" ++ deleteToken ++ "-" ++ fileName
    INFOMEDIA_API_URL := "https://host.example/api.php"
    urlFromString := fun t => ⟨t⟩
    urlToString := fun u => u.repr
    fromUtf8 := bytesToText
    savePng := fun p => p.pixels.map UInt8.ofNat
    tr := fun t => t }

/-- A captured image to evaluate the model on. -/
def sampleImage : QPixmap := ⟨[137, 80, 78, 71]⟩

/-- A successful reply with the given body text. -/
def okReply (body : QString) : QNetworkReply :=
  { error := NoError, errorString := "Unknown error", readAll := textToBytes body }

/-- A reply that failed with `ConnectionRefusedError`. -/
def refusedReply : QNetworkReply :=
  { error := 1, errorString := "Connection refused", readAll := [] }

/-! ## Facts about the Qt string operations -/

theorem slash_data : ("/" : QString).data = ['/'] := rfl

theorem isPrefixOf_slash (l : List Char) :
    List.isPrefixOf ['/'] l = (l.head? == some '/') := by
  cases l with
  | nil => rfl
  | cons x xs =>
    by_cases hx : x = '/'
    · subst hx; simp [List.isPrefixOf]
    · have h1 : ('/' == x) = false := by
        simp only [beq_eq_false_iff_ne, ne_eq]
        exact fun h => hx h.symm
      have h2 : (some x == some '/') = false := by
        simp only [beq_eq_false_iff_ne, ne_eq, Option.some.injEq]
        exact hx
      simp [List.isPrefixOf, h1, h2]

theorem head?_drop_ne_slash (base : List Char) (h : '/' ∉ base) (k : Nat) :
    ((base.drop k).head? == some '/') = false := by
  cases hd : base.drop k with
  | nil => rfl
  | cons x xs =>
    have hx : x ∈ base := List.mem_of_mem_drop (by rw [hd]; exact List.mem_cons_self x xs)
    have hne : x ≠ '/' := fun e => h (e ▸ hx)
    simp only [List.head?_cons, beq_eq_false_iff_ne, ne_eq, Option.some.injEq]
    exact hne

/-- The backward scan finds nothing in a text without a slash. -/
theorem lastIndexOfAux_none (hay : List Char) (h : '/' ∉ hay) (n : Nat) :
    lastIndexOfAux hay ['/'] n = -1 := by
  induction n with
  | zero =>
    have h0 := head?_drop_ne_slash hay h 0
    rw [List.drop_zero] at h0
    simp [lastIndexOfAux, isPrefixOf_slash, h0]
  | succ n ih =>
    have hs := head?_drop_ne_slash hay h (n + 1)
    simp only [lastIndexOfAux, isPrefixOf_slash, hs]
    exact ih

/-- The backward scan started at or after the last slash stops on it. -/
theorem lastIndexOfAux_found (pre base : List Char) (h : '/' ∉ base) (n : Nat)
    (hn : pre.length ≤ n) :
    lastIndexOfAux (pre ++ '/' :: base) ['/'] n = (pre.length : Int) := by
  induction n with
  | zero =>
    have hp : pre = [] := List.length_eq_zero.mp (Nat.le_zero.mp hn)
    subst hp
    simp [lastIndexOfAux, isPrefixOf_slash]
  | succ n ih =>
    by_cases he : pre.length = n + 1
    · have hd : (pre ++ '/' :: base).drop (n + 1) = '/' :: base := by
        rw [← he]; exact List.drop_left pre ('/' :: base)
      simp [lastIndexOfAux, isPrefixOf_slash, hd, he]
    · have hle : pre.length ≤ n := by omega
      have hd : (pre ++ '/' :: base).drop (n + 1) = base.drop (n - pre.length) := by
        rw [List.drop_append_eq_append_drop]
        have h1 : pre.drop (n + 1) = [] := List.drop_eq_nil_of_le (by omega)
        have h2 : n + 1 - pre.length = (n - pre.length) + 1 := by omega
        rw [h1, h2, List.nil_append, List.drop_succ_cons]
      have hs := head?_drop_ne_slash base h (n - pre.length)
      simp only [lastIndexOfAux, isPrefixOf_slash, hd, hs]
      exact ih hle

/-- Every text either has no slash or splits at its last slash. -/
theorem split_at_last_slash (l : List Char) :
    '/' ∉ l ∨ ∃ pre base, l = pre ++ '/' :: base ∧ '/' ∉ base := by
  induction l with
  | nil => left; simp
  | cons x xs ih =>
    rcases ih with h | ⟨pre, base, hl, hb⟩
    · by_cases hx : x = '/'
      · right; exact ⟨[], xs, by simp [hx], h⟩
      · left
        intro hm
        rcases List.mem_cons.mp hm with e | e
        · exact hx e.symm
        · exact h e
    · right; exact ⟨x :: pre, base, by simp [hl], hb⟩

/-- The base name of a text without a slash is the text. -/
theorem derivedBaseName_no_slash (u : QString) (h : '/' ∉ u.data) :
    derivedBaseName u = u := by
  have hi : QString.lastIndexOf u "/" = -1 := by
    unfold QString.lastIndexOf
    split
    · rfl
    · rw [slash_data]; exact lastIndexOfAux_none u.data h _
  simp [derivedBaseName, hi]

/-- The base name of a text that splits at its last slash is what follows it. -/
theorem derivedBaseName_split (pre base : List Char) (h : '/' ∉ base) :
    derivedBaseName ⟨pre ++ '/' :: base⟩ = ⟨base⟩ := by
  have hi : QString.lastIndexOf ⟨pre ++ '/' :: base⟩ "/" = (pre.length : Int) := by
    unfold QString.lastIndexOf
    rw [slash_data]
    have hlen : (pre ++ '/' :: base).length = pre.length + base.length + 1 := by
      simp [Nat.add_assoc]
    split
    · rename_i hc
      simp only [hlen, List.length_singleton] at hc
      omega
    · apply lastIndexOfAux_found pre base h
      simp only [hlen, List.length_singleton]
      omega
  have hpos : (0 : Int) ≤ (pre.length : Int) := Int.ofNat_nonneg _
  have hmid : QString.mid ⟨pre ++ '/' :: base⟩ ((pre.length : Int) + 1) = ⟨base⟩ := by
    unfold QString.mid
    have hlen : ((pre ++ '/' :: base).length : Int) = (pre.length : Int) + base.length + 1 := by
      simp [Int.add_assoc]
    have h1 : ¬ ((pre.length : Int) + 1 > ((pre ++ '/' :: base).length : Int)) := by
      rw [hlen]; omega
    have h2 : ¬ ((pre.length : Int) + 1 < 0) := by omega
    have h3 : ((pre.length : Int) + 1).toNat = pre.length + 1 := by omega
    rw [if_neg h1, if_neg h2, h3]
    congr 1
    rw [List.drop_append_eq_append_drop]
    simp
  simp only [derivedBaseName, hi, ge_iff_le, hpos, if_true, hmid]

/-- The session cookie: `%1` of the template is the only marker. -/
theorem arg_PHPSESSID (userHash : QString) :
    QString.arg "PHPSESSID %1" userHash = "PHPSESSID " ++ userHash := by
  apply String.ext
  simp [QString.arg, lowestMarker, markerAt, markerDigits, digitValue, replaceMarker]

theorem append_slash_append_data (pre base : QString) :
    pre ++ "/" ++ base = (⟨pre.data ++ '/' :: base.data⟩ : QString) := by
  apply String.ext
  simp [String.data_append, slash_data]

theorem handleReply_ok (env : Env) (s : InfomediaUploader) (reply : QNetworkReply)
    (h : reply.error = NoError) :
    handleReply env s reply =
      ({ s with
          m_imageURL := env.urlFromString (env.fromUtf8 reply.readAll)
          m_currentImageName :=
            env.packFileName "infomedia" env.infomediaUserHash
              (derivedBaseName
                (env.urlToString (env.urlFromString (env.fromUtf8 reply.readAll)))) },
       [Effect.spinnerDeleteLater,
        Effect.setImageURL (env.urlFromString (env.fromUtf8 reply.readAll)),
        Effect.historySave s.pixmap
          (env.packFileName "infomedia" env.infomediaUserHash
            (derivedBaseName
              (env.urlToString (env.urlFromString (env.fromUtf8 reply.readAll))))),
        Effect.uploadOk (env.urlFromString (env.fromUtf8 reply.readAll)),
        Effect.newEscapeShortcut]) := by
  simp [handleReply, h, InfomediaUploader.setImageURL, InfomediaUploader.imageURL]

theorem handleReply_error (env : Env) (s : InfomediaUploader) (reply : QNetworkReply)
    (h : reply.error ≠ NoError) :
    handleReply env s reply =
      ({ s with m_currentImageName := "" },
       [Effect.spinnerDeleteLater,
        Effect.setInfoLabelText reply.errorString,
        Effect.newEscapeShortcut]) := by
  simp [handleReply, h]

/-! ## The claims -/

/-- C1: the request built by `upload()` has exactly four form parts, in the
order `reqtype` (body `fileupload`), `userhash` (body the user hash), `secret`
(body the API token), `file` (body the PNG bytes of the image), and its only
raw header is `Cookie`, with the value `PHPSESSID ` followed by the user hash. -/
theorem upload_request_parts_and_cookie (env : Env) (s : InfomediaUploader) :
    (upload env s).2 =
        [Effect.post s.m_NetworkAM (cookieRequest env) (uploadMultiPart env s)] ∧
      (uploadMultiPart env s).parts.map formField =
        [(some "form-data; name=\"reqtype\"", QString.toUtf8 "fileupload"),
         (some "form-data; name=\"userhash\"", QString.toUtf8 env.infomediaUserHash),
         (some "form-data; name=\"secret\"", QString.toUtf8 env.infomediaApiToken),
         (some "form-data; name=\"file\"; filename=\"upload.png\"", env.savePng s.pixmap)] ∧
      (cookieRequest env).rawHeaders =
        [(QString.toUtf8 "Cookie", QString.toUtf8 ("PHPSESSID " ++ env.infomediaUserHash))] := by
  refine ⟨rfl, ?_, ?_⟩
  · simp [uploadMultiPart, QHttpMultiPart.append, formField, reqTypePart, userPart,
      secretPart, QHttpPart.setHeader, QHttpPart.setBody, QHttpPart.header]
  · simp [cookieRequest, QNetworkRequest.setRawHeader, arg_PHPSESSID]

/-- C2: on a successful reply the name `handleReply` leaves in
`m_currentImageName` is `packFileName("infomedia", userHash, baseName)`, where
`baseName`, derived from the text of the published URL, is what follows the
last `/` when the text has one (the empty string when the last `/` ends the
text) and the whole text when it has none. -/
theorem handleReply_base_name (env : Env) (s : InfomediaUploader) (reply : QNetworkReply)
    (h : reply.error = NoError) :
    (handleReply env s reply).1.m_currentImageName =
        env.packFileName "infomedia" env.infomediaUserHash
          (derivedBaseName (env.urlToString (handleReply env s reply).1.imageURL)) ∧
      (∀ pre base : QString, '/' ∉ base.data →
        env.urlToString (handleReply env s reply).1.imageURL = pre ++ "/" ++ base →
        derivedBaseName (env.urlToString (handleReply env s reply).1.imageURL) = base) ∧
      (∀ pre : QString,
        env.urlToString (handleReply env s reply).1.imageURL = pre ++ "/" →
        derivedBaseName (env.urlToString (handleReply env s reply).1.imageURL) = "") ∧
      ('/' ∉ (env.urlToString (handleReply env s reply).1.imageURL).data →
        derivedBaseName (env.urlToString (handleReply env s reply).1.imageURL) =
          env.urlToString (handleReply env s reply).1.imageURL) := by
  refine ⟨?_, ?_, ?_, ?_⟩
  · rw [handleReply_ok env s reply h]; rfl
  · intro pre base hb ht
    rw [ht, append_slash_append_data]
    exact derivedBaseName_split pre.data base.data hb
  · intro pre ht
    have hp : pre ++ "/" = pre ++ "/" ++ "" := by
      apply String.ext; simp [String.data_append]
    rw [ht, hp, append_slash_append_data]
    exact derivedBaseName_split pre.data [] (by simp)
  · intro hn
    exact derivedBaseName_no_slash _ hn

/-- C2, on an instance: the published URL `https://host.example/abc123.png`
has the base name `abc123.png`, and `https://host.example/` has the empty one. -/
theorem handleReply_base_name_witness :
    (okReply "https://host.example/abc123.png").error = NoError ∧
      (handleReply sampleEnv (InfomediaUploader.new sampleImage)
        (okReply "https://host.example/abc123.png")).1.m_currentImageName =
        "infomedia-hash-abc123.png" ∧
      derivedBaseName (sampleEnv.urlToString (handleReply sampleEnv
        (InfomediaUploader.new sampleImage)
        (okReply "https://host.example/abc123.png")).1.imageURL) = "abc123.png" ∧
      derivedBaseName (sampleEnv.urlToString (handleReply sampleEnv
        (InfomediaUploader.new sampleImage)
        (okReply "https://host.example/")).1.imageURL) = "" ∧
      derivedBaseName (sampleEnv.urlToString (handleReply sampleEnv
        (InfomediaUploader.new sampleImage)
        (okReply "abc123.png")).1.imageURL) = "abc123.png" :=
  ⟨by decide,
   (handleReply_base_name sampleEnv (InfomediaUploader.new sampleImage)
      (okReply "https://host.example/abc123.png") (by decide)).1.trans (by decide),
   (handleReply_base_name sampleEnv (InfomediaUploader.new sampleImage)
      (okReply "https://host.example/abc123.png") (by decide)).2.1
      "https://host.example" "abc123.png" (by decide) (by decide),
   (handleReply_base_name sampleEnv (InfomediaUploader.new sampleImage)
      (okReply "https://host.example/") (by decide)).2.2.1
      "https://host.example" (by decide),
   (handleReply_base_name sampleEnv (InfomediaUploader.new sampleImage)
      (okReply "abc123.png") (by decide)).2.2.2 (by decide)⟩

/-- C3: on a successful reply `handleReply` calls `history.save` exactly once,
with the uploader's image and the name
`packFileName("infomedia", userHash, baseName)`, `baseName` being the last path
segment of the published URL; when that URL reads
`https://host.example/abc123.png` the name is
`packFileName("infomedia", userHash, "abc123.png")`. -/
theorem handleReply_saves_once (env : Env) (s : InfomediaUploader) (reply : QNetworkReply)
    (h : reply.error = NoError) :
    historySaves (handleReply env s reply).2 =
        [(s.pixmap, env.packFileName "infomedia" env.infomediaUserHash
          (derivedBaseName (env.urlToString (handleReply env s reply).1.imageURL)))] ∧
      (env.urlToString (handleReply env s reply).1.imageURL =
          "https://host.example/abc123.png" →
        historySaves (handleReply env s reply).2 =
          [(s.pixmap, env.packFileName "infomedia" env.infomediaUserHash "abc123.png")]) := by
  have hs : historySaves (handleReply env s reply).2 =
      [(s.pixmap, env.packFileName "infomedia" env.infomediaUserHash
        (derivedBaseName (env.urlToString (handleReply env s reply).1.imageURL)))] := by
    rw [handleReply_ok env s reply h]; rfl
  refine ⟨hs, ?_⟩
  intro ht
  rw [hs, ht]
  have hb : derivedBaseName "https://host.example/abc123.png" = "abc123.png" := by decide
  rw [hb]

/-- C3, on an instance: the body `https://host.example/abc123.png` makes one
history entry, the image under `infomedia-hash-abc123.png`. -/
theorem handleReply_saves_once_witness :
    (okReply "https://host.example/abc123.png").error = NoError ∧
      historySaves (handleReply sampleEnv (InfomediaUploader.new sampleImage)
        (okReply "https://host.example/abc123.png")).2 =
        [(sampleImage, "infomedia-hash-abc123.png")] :=
  ⟨by decide,
   (handleReply_saves_once sampleEnv (InfomediaUploader.new sampleImage)
      (okReply "https://host.example/abc123.png") (by decide)).2 (by decide)⟩

/-- C4: on a reply with a transport error `handleReply` makes no `history.save`
call, publishes no URL (no `setImageURL`, `imageURL()` unchanged), emits no
`uploadOk`, and passes the reply's error string, unmodified and once, to
`setInfoLabelText`. -/
theorem handleReply_error_surfaces_message (env : Env) (s : InfomediaUploader)
    (reply : QNetworkReply) (h : reply.error ≠ NoError) :
    (handleReply env s reply).2 =
        [Effect.spinnerDeleteLater, Effect.setInfoLabelText reply.errorString,
         Effect.newEscapeShortcut] ∧
      historySaves (handleReply env s reply).2 = [] ∧
      publishedURLs (handleReply env s reply).2 = [] ∧
      (handleReply env s reply).1.imageURL = s.imageURL ∧
      uploadOks (handleReply env s reply).2 = [] ∧
      infoLabelTexts (handleReply env s reply).2 = [reply.errorString] := by
  rw [handleReply_error env s reply h]
  exact ⟨rfl, rfl, rfl, rfl, rfl, rfl⟩

/-- C4, on an instance: a refused connection shows `Connection refused` and
nothing else happens. -/
theorem handleReply_error_surfaces_message_witness :
    refusedReply.error ≠ NoError ∧
      (handleReply sampleEnv (InfomediaUploader.new sampleImage) refusedReply).2 =
        [Effect.spinnerDeleteLater, Effect.setInfoLabelText "Connection refused",
         Effect.newEscapeShortcut] :=
  ⟨by decide,
   (handleReply_error_surfaces_message sampleEnv (InfomediaUploader.new sampleImage)
      refusedReply (by decide)).1⟩

/-- C5, the code at the failing inputs: `deleteImage` emits `deleteOk` exactly
once on every call, whatever the reply reports.  When the reply returned by
`post` already reports an error, the trace is: post, one notification
`tr("Unable to delete file.")`, then `deleteOk` all the same.  When it reports
none yet, the trace is post, `deleteOk`, and a later completion of the request
on the manager it was posted on runs no slot, so a transport error that ends
the request shows nothing.  Evaluated for a refused connection, the trace is
post, `Unable to delete file.`, `deleteOk`. -/
theorem deleteImage_emits_deleteOk_despite_error (env : Env) (s : InfomediaUploader)
    (capture : QPixmap) (fileName deleteToken : QString)
    (reply completion : QNetworkReply) :
    deleteOkCount (deleteImage env s fileName deleteToken reply).2 = 1 ∧
      (deleteImage env s fileName deleteToken reply).2 =
        (if reply.error ≠ NoError then
          [Effect.post s.managers (cookieRequest env)
             (deleteMultiPart env fileName deleteToken),
           Effect.showMessage (env.tr "Unable to delete file."),
           Effect.deleteOk]
        else
          [Effect.post s.managers (cookieRequest env)
             (deleteMultiPart env fileName deleteToken),
           Effect.deleteOk]) ∧
      (finished env
        (deleteImage env (InfomediaUploader.new capture) fileName deleteToken reply).1
        1 completion).2 = [] ∧
      (deleteImage sampleEnv (InfomediaUploader.new sampleImage)
        "abc123.png" "token-T" refusedReply).2 =
        [Effect.post 1 (cookieRequest sampleEnv)
           (deleteMultiPart sampleEnv "abc123.png" "token-T"),
         Effect.showMessage "Unable to delete file.",
         Effect.deleteOk] := by
  refine ⟨?_, ?_, ?_, by decide⟩
  · by_cases h : reply.error = NoError <;> simp [deleteImage, h, deleteOkCount]
  · by_cases h : reply.error = NoError <;> simp [deleteImage, h]
  · by_cases h : reply.error = NoError <;>
      simp [deleteImage, h, finished, InfomediaUploader.new]

/-- C6: whatever the reply, the request built by `deleteImage(fileName,
deleteToken)` has exactly four form parts, in the order `reqtype` (body
`deletefiles`), `userhash` (body the delete token), `secret` (body the API
token), `file` (body the file name), and it is posted with the very request
`upload()` uses: the only raw header is `Cookie`, with the value `PHPSESSID `
followed by the local user hash. -/
theorem deleteImage_request_parts_and_cookie (env : Env) (s : InfomediaUploader)
    (fileName deleteToken : QString) (reply : QNetworkReply) :
    posts (deleteImage env s fileName deleteToken reply).2 =
        [(s.managers, cookieRequest env, deleteMultiPart env fileName deleteToken)] ∧
      (deleteMultiPart env fileName deleteToken).parts.map formField =
        [(some "form-data; name=\"reqtype\"", QString.toUtf8 "deletefiles"),
         (some "form-data; name=\"userhash\"", QString.toUtf8 deleteToken),
         (some "form-data; name=\"secret\"", QString.toUtf8 env.infomediaApiToken),
         (some "form-data; name=\"file\";", QString.toUtf8 fileName)] ∧
      (posts (deleteImage env s fileName deleteToken reply).2).map (fun p => p.2.1) =
        (posts (upload env s).2).map (fun p => p.2.1) ∧
      (cookieRequest env).rawHeaders =
        [(QString.toUtf8 "Cookie", QString.toUtf8 ("PHPSESSID " ++ env.infomediaUserHash))] := by
  have hp : posts (deleteImage env s fileName deleteToken reply).2 =
      [(s.managers, cookieRequest env, deleteMultiPart env fileName deleteToken)] := by
    by_cases h : reply.error = NoError <;> simp [deleteImage, h, posts]
  refine ⟨hp, ?_, ?_, ?_⟩
  · simp [deleteMultiPart, QHttpMultiPart.append, formField, reqTypePart, userPart,
      secretPart, QHttpPart.setHeader, QHttpPart.setBody, QHttpPart.header]
  · rw [hp]; rfl
  · simp [cookieRequest, QNetworkRequest.setRawHeader, arg_PHPSESSID]

/-- C7: `handleReply` produces exactly one terminal outcome.  Without error the
whole trace is: spinner released, `setImageURL`, `history.save` under the
derived name, one `uploadOk` carrying the published URL, Escape shortcut; no
error text is shown.  With an error the whole trace is: spinner released, one
`setInfoLabelText` with the error string, Escape shortcut; no `uploadOk`. -/
theorem handleReply_one_outcome (env : Env) (s : InfomediaUploader) (reply : QNetworkReply) :
    (reply.error = NoError →
        (handleReply env s reply).2 =
          [Effect.spinnerDeleteLater,
           Effect.setImageURL (env.urlFromString (env.fromUtf8 reply.readAll)),
           Effect.historySave s.pixmap
             (env.packFileName "infomedia" env.infomediaUserHash
               (derivedBaseName (env.urlToString (handleReply env s reply).1.imageURL))),
           Effect.uploadOk (handleReply env s reply).1.imageURL,
           Effect.newEscapeShortcut] ∧
        uploadOks (handleReply env s reply).2 = [(handleReply env s reply).1.imageURL] ∧
        infoLabelTexts (handleReply env s reply).2 = []) ∧
      (reply.error ≠ NoError →
        (handleReply env s reply).2 =
          [Effect.spinnerDeleteLater, Effect.setInfoLabelText reply.errorString,
           Effect.newEscapeShortcut] ∧
        infoLabelTexts (handleReply env s reply).2 = [reply.errorString] ∧
        uploadOks (handleReply env s reply).2 = []) := by
  constructor
  · intro h
    rw [handleReply_ok env s reply h]
    exact ⟨rfl, rfl, rfl⟩
  · intro h
    rw [handleReply_error env s reply h]
    exact ⟨rfl, rfl, rfl⟩

/-- C7, on instances: the trace of a successful reply and the trace of a
refused connection. -/
theorem handleReply_one_outcome_witness :
    ((okReply "https://host.example/abc123.png").error = NoError ∧
      (handleReply sampleEnv (InfomediaUploader.new sampleImage)
        (okReply "https://host.example/abc123.png")).2 =
        [Effect.spinnerDeleteLater,
         Effect.setImageURL ⟨"https://host.example/abc123.png"⟩,
         Effect.historySave sampleImage "infomedia-hash-abc123.png",
         Effect.uploadOk ⟨"https://host.example/abc123.png"⟩,
         Effect.newEscapeShortcut]) ∧
      (refusedReply.error ≠ NoError ∧
        uploadOks (handleReply sampleEnv (InfomediaUploader.new sampleImage)
          refusedReply).2 = []) :=
  ⟨⟨by decide,
    ((handleReply_one_outcome sampleEnv (InfomediaUploader.new sampleImage)
      (okReply "https://host.example/abc123.png")).1 (by decide)).1.trans (by decide)⟩,
   ⟨by decide,
    ((handleReply_one_outcome sampleEnv (InfomediaUploader.new sampleImage)
      refusedReply).2 (by decide)).2.2⟩⟩

/-- C9, the code at the failing input: after construction and one
`deleteImage`, `m_NetworkAM` points to manager 1, whose `finished` signal is
connected to nothing; the next `upload()` posts on that manager, and the
completion of that request does not reach `handleReply` (no effect at all).
Without the `deleteImage`, the upload is posted on manager 0 and its
completion runs `handleReply`. -/
theorem upload_after_deleteImage_not_delivered (env : Env) (capture : QPixmap)
    (fileName deleteToken : QString) (deleteReply uploadReply : QNetworkReply) :
    finished env (run env (InfomediaUploader.new capture) [Call.upload]) 0 uploadReply =
        handleReply env (InfomediaUploader.new capture) uploadReply ∧
      (run env (InfomediaUploader.new capture)
        [Call.deleteImage fileName deleteToken deleteReply]).m_NetworkAM = 1 ∧
      (run env (InfomediaUploader.new capture)
        [Call.deleteImage fileName deleteToken deleteReply]).connections = [0] ∧
      (posts (upload env (run env (InfomediaUploader.new capture)
        [Call.deleteImage fileName deleteToken deleteReply])).2).map (fun p => p.1) = [1] ∧
      (finished env (run env (InfomediaUploader.new capture)
        [Call.deleteImage fileName deleteToken deleteReply, Call.upload]) 1 uploadReply).2
        = [] := by
  by_cases h : deleteReply.error = NoError <;>
    simp [run, step, deleteImage, h, InfomediaUploader.new, upload, posts, finished]

/-- C10: for every URL text, the base name derived in `handleReply` contains
no `/`, is a suffix of the text, and is its own base name. -/
theorem derivedBaseName_slash_free_suffix_idempotent (u : QString) :
    '/' ∉ (derivedBaseName u).data ∧
      (derivedBaseName u).data <:+ u.data ∧
      derivedBaseName (derivedBaseName u) = derivedBaseName u := by
  rcases split_at_last_slash u.data with hn | ⟨pre, base, hu, hb⟩
  · have hd := derivedBaseName_no_slash u hn
    rw [hd, hd]
    exact ⟨hn, List.suffix_refl _, rfl⟩
  · have hu2 : u = ⟨pre ++ '/' :: base⟩ := String.ext hu
    have hd := derivedBaseName_split pre base hb
    rw [hu2, hd]
    refine ⟨hb, ?_, derivedBaseName_no_slash ⟨base⟩ hb⟩
    exact ⟨pre ++ ['/'], by simp⟩

end Infomedia
